import Mathlib

/-!
Verification of the pdf-data-extractor batch pipeline.

The Python sources (main.py, main_facesheet_extraction.py,
main_json_extractor.py, main_json_extractor_troubleshoot.py) are shallowly
embedded below: pure string manipulation becomes Lean functions over
`String` and `List Char`, Python dicts become association lists over a
`Value` type (string or null), the per-document batch loops become folds
over an environment that records, per filename, how the external
PDF-rasterizer and model calls behave, and Python exceptions become
`Except` values.
-/

/-! ### Python string primitives -/

/-- Whitespace characters stripped by Python `str.strip()` (ASCII range). -/
def pyIsSpace (c : Char) : Bool :=
  c = ' ' || c = '\t' || c = '\n' || c = '\r' || c = '\x0b' || c = '\x0c'

/-- Model of Python `str.strip()`: drop whitespace from both ends. -/
def pyStrip (s : String) : String :=
  String.mk (((s.toList.dropWhile pyIsSpace).reverse.dropWhile pyIsSpace).reverse)

/-- Model of Python `str.lower()` (ASCII case folding). -/
def pyLower (s : String) : String :=
  String.mk (s.toList.map Char.toLower)

/-- Auxiliary splitter: cut a character list at every whitespace
character, keeping the (possibly empty) segments. -/
def splitWsAux : List Char → List Char → List (List Char)
  | [], acc => [acc.reverse]
  | c :: rest, acc =>
    if pyIsSpace c then acc.reverse :: splitWsAux rest []
    else splitWsAux rest (c :: acc)

/-- Model of Python `str.split()` with no separator: fields between
whitespace runs, with no empty fields. -/
def pySplitWs (s : String) : List String :=
  ((splitWsAux s.toList []).map (fun cs => String.mk cs)).filter
    (fun t => t ≠ "")

/-- Model of Python `str.replace(c, r)` for single-character patterns. -/
def pyReplaceChar (s : String) (c r : Char) : String :=
  String.mk (s.toList.map (fun x => if x = c then r else x))

/-- Number of alphabetic characters, as counted by `c.isalpha()` over the
ASCII strings this pipeline handles. -/
def countAlpha (s : String) : Nat :=
  (s.toList.filter Char.isAlpha).length

/-- Auxiliary search: the least offset at which `pat` occurs as a prefix of
a suffix of `s`, scanning left to right. -/
def findSubAux (pat : List Char) : List Char → Option Nat
  | [] => if pat = [] then some 0 else none
  | c :: rest =>
    if pat.isPrefixOf (c :: rest) then some 0
    else (findSubAux pat rest).map (· + 1)

/-- Model of Python `haystack.find(pat, start)` restricted to successful
results: first index `≥ start` where `pat` occurs, `none` for Python -1. -/
def pyFindFrom (s pat : String) (start : Nat) : Option Nat :=
  (findSubAux pat.toList (s.toList.drop start)).map (· + start)

/-- Model of Python `pat in haystack` (substring test). -/
def pyContains (s pat : String) : Bool :=
  (pyFindFrom s pat 0).isSome

/-- Auxiliary search for the last index of a character in a list. -/
def pyRfindCharAux (c : Char) : List Char → Option Nat
  | [] => none
  | x :: rest =>
    match pyRfindCharAux c rest with
    | some j => some (j + 1)
    | none => if x = c then some 0 else none

/-- Model of Python `haystack.rfind(c)` for a single character: last index
of `c`, `none` for Python -1. -/
def pyRfindChar (s : String) (c : Char) : Option Nat :=
  pyRfindCharAux c s.toList

/-- Model of the Python slice `s[a:b]` for `0 ≤ a ≤ b` (clamped). -/
def pySlice (s : String) (a b : Nat) : String :=
  String.mk ((s.toList.drop a).take (b - a))

/-- Model of Python `str.startswith(pat)`. -/
def pyStartsWith (s pat : String) : Bool :=
  pat.toList.isPrefixOf s.toList

/-! ### CheckpointStore (main.py lines 21-32, identical in
main_facesheet_extraction.py lines 99-110)

`save_checkpoint` receives the in-memory set of processed filenames.  A
Python `set` enumerates its elements in an arbitrary order, so the model
takes an arbitrarily ordered duplicate-free list; `json.dump(sorted(s),
f, indent=2)` is modelled by sorting and rendering the JSON array text
that `json.dump` produces with `indent=2`. -/

/-- Escape one character the way `json.dump` escapes string contents. -/
def pyJsonEscapeChar (c : Char) : String :=
  if c = '\\' then "\\\\"
  else if c = '\"' then "\\\""
  else String.singleton c

/-- Render one filename as a JSON string literal. -/
def pyJsonStr (s : String) : String :=
  "\"" ++ String.join (s.toList.map pyJsonEscapeChar) ++ "\""

/-- Byte content `json.dump(l, f, indent=2)` writes for a list of strings. -/
def jsonArrayDump (l : List String) : String :=
  match l with
  | [] => "[]"
  | _ => "[\n  " ++ String.intercalate ",\n  " (l.map pyJsonStr) ++ "\n]"

/-- Model of `save_checkpoint` (main.py lines 29-32): the file is rewritten
wholesale with the JSON rendering of the sorted filename list; the result
is the full new file content, a function of the set alone. -/
def save_checkpoint (processed_set : List String) : String :=
  jsonArrayDump (List.insertionSort (fun a b => a ≤ b) processed_set)

/-- C3: saving two equal sets of filenames produces byte-identical file
contents, namely the JSON array of the filenames in sorted order, written
wholesale as a function of the set only; saving the same set twice is the
reflexive instance. -/
theorem save_checkpoint_deterministic (l₁ l₂ : List String)
    (h₁ : l₁.Nodup) (h₂ : l₂.Nodup) (hmem : ∀ x, x ∈ l₁ ↔ x ∈ l₂) :
    save_checkpoint l₁ = save_checkpoint l₂ ∧
    ∃ s, save_checkpoint l₁ = jsonArrayDump s ∧
      s.Sorted (fun a b => a ≤ b) ∧ s.Perm l₁ := by
  have hperm : l₁.Perm l₂ := (List.perm_ext_iff_of_nodup h₁ h₂).mpr hmem
  have hs₁ := List.sorted_insertionSort (α := String) (fun a b => a ≤ b) l₁
  have hs₂ := List.sorted_insertionSort (α := String) (fun a b => a ≤ b) l₂
  have hp₁ := List.perm_insertionSort (α := String) (fun a b => a ≤ b) l₁
  have hp₂ := List.perm_insertionSort (α := String) (fun a b => a ≤ b) l₂
  have heq : List.insertionSort (fun a b => a ≤ b) l₁ =
      List.insertionSort (fun a b => a ≤ b) l₂ :=
    List.eq_of_perm_of_sorted ((hp₁.trans hperm).trans hp₂.symm) hs₁ hs₂
  refine ⟨by rw [save_checkpoint, save_checkpoint, heq], ?_⟩
  exact ⟨List.insertionSort (fun a b => a ≤ b) l₁, rfl, hs₁, hp₁⟩

/-- Witness for C3: two enumerations of the same two-element set yield
byte-identical checkpoint file contents. -/
theorem save_checkpoint_deterministic_witness :
    save_checkpoint ["b.pdf", "a.pdf"] = save_checkpoint ["a.pdf", "b.pdf"] :=
  (save_checkpoint_deterministic ["b.pdf", "a.pdf"] ["a.pdf", "b.pdf"]
    (by decide) (by decide)
    (by intro x; simp [List.mem_cons]; tauto)).1

/-! ### ResponseParser (main.py lines 229-243, identical in
main_facesheet_extraction.py lines 350-362 and main_json_extractor.py
lines 281-293)

The source inspects the raw model response text: a fenced block tagged
json wins, else the substring from the first opening brace to the last
closing brace, else it raises `ValueError("No JSON found in response")`.
Brace characters appear below as the escapes `\x7b` and `\x7d`. -/

/-- Result of the JSON-block extraction step: either the substring handed
to `json.loads`, or the raised no-JSON `ValueError`. -/
inductive ExtractResult
  | found (json_text : String)
  | noJson
deriving DecidableEq

/-- End position of the fenced block: `response_text.find(s, json_start)`
slices up to the closing fence when present; the Python -1 on a missing
closing fence makes `[json_start:-1]` slice up to `len - 1`. -/
def fenceEnd (response_text : String) (json_start : Nat) : Nat :=
  (pyFindFrom response_text "```" json_start).getD (response_text.length - 1)

/-- Model of the extraction strategy of `ollama_process_image`
(main.py lines 231-241).  Under the first guard the opening-fence search
always succeeds, so its `getD 0` is exact. -/
def extractJsonBlock (response_text : String) : ExtractResult :=
  if pyContains response_text "```json" then
    let json_start := (pyFindFrom response_text "```json" 0).getD 0 + 7
    ExtractResult.found (pyStrip (pySlice response_text json_start (fenceEnd response_text json_start)))
  else if pyContains response_text "\x7b" && pyContains response_text "\x7d" then
    let json_start := (pyFindFrom response_text "\x7b" 0).getD 0
    let json_end := (pyRfindChar response_text '\x7d').getD 0 + 1
    ExtractResult.found (pySlice response_text json_start json_end)
  else ExtractResult.noJson

/-! ### Field mappings (Python dicts of string/null values) -/

/-- A field value as produced by `json.loads` on the extraction schema:
a string or JSON null (Python `None`). -/
inductive Value
  | str (s : String)
  | null
deriving DecidableEq

/-- A parsed field mapping: insertion-ordered keyed entries. -/
abbrev PyDict := List (String × Value)

/-- Model of Python `d[k]` lookup / `d.get(k)` with `None` for a missing
key, on the first matching entry. -/
def dictLookup (d : PyDict) (k : String) : Option Value :=
  match d with
  | [] => none
  | (k₀, v₀) :: rest => if k₀ = k then some v₀ else dictLookup rest k

/-- Model of Python `d.get(k, default)`. -/
def dictGetD (d : PyDict) (k : String) (dflt : Value) : Value :=
  (dictLookup d k).getD dflt

/-- Model of Python `d[k] = v`: overwrite the matching entry in place, or
append a fresh one. -/
def dictSet (d : PyDict) (k : String) (v : Value) : PyDict :=
  match d with
  | [] => [(k, v)]
  | (k₀, v₀) :: rest => if k₀ = k then (k₀, v) :: rest else (k₀, v₀) :: dictSet rest k v

/-! ### FieldValidator (main.py lines 110-142)

The normalization loop stores `value.strip()` and then overwrites with
"N/A" when `value.lower()` (the original, unstripped value) is one of the
placeholder variants.  The four fix-up steps afterwards call string
methods on values fetched with `.get`, so a `None` (JSON null) value in a
consulted field raises `AttributeError`/`TypeError`; the model makes the
raise explicit with `Except`. -/

/-- Python exceptions that `validate_extracted_data` can raise. -/
inductive PyError
  | attributeError
  | typeError
deriving DecidableEq

/-- Placeholder variants collapsed to "N/A" (main.py line 117). -/
def sentinelVariants : List String :=
  ["n/a", "na", "not available", "not visible", "", "unclear"]

/-- Per-entry effect of the normalization loop (main.py lines 114-118):
strings are stripped, but the placeholder test uses the original
unstripped value; non-strings are left alone. -/
def normalizeValue : Value → Value
  | Value.str value =>
    if pyLower value ∈ sentinelVariants then Value.str "N/A"
    else Value.str (pyStrip value)
  | Value.null => Value.null

/-- Document-status inference (main.py lines 121-124).  When the check
fires, `.lower()` on a `None` authenticated-by value raises. -/
def statusStep (validated : PyDict) : Except PyError PyDict :=
  if dictLookup validated "document_status" = some (Value.str "N/A") then
    match dictGetD validated "authenticated_by" (Value.str "") with
    | Value.str s =>
      if pyContains (pyLower s) "verified" || pyContains (pyLower s) "auth" then
        Except.ok (dictSet validated "document_status" (Value.str "Verified"))
      else Except.ok validated
    | Value.null => Except.error PyError.attributeError
  else Except.ok validated

/-- Facility-name correction (main.py lines 127-129).  `.lower()` on a
`None` facility name raises unconditionally. -/
def facilityStep (validated : PyDict) : Except PyError PyDict :=
  match dictGetD validated "facility_name" (Value.str "") with
  | Value.str facility_name =>
    if pyContains (pyLower facility_name) "adventist" &&
        !(pyContains (pyLower facility_name) "white oak") then
      Except.ok (dictSet validated "facility_name" (Value.str "White Oak Medical Center"))
    else Except.ok validated
  | Value.null => Except.error PyError.attributeError

/-- Location-format check (main.py lines 132-134).  For a `None` location
the inequality test passes and `.startswith` then raises. -/
def locationStep (validated : PyDict) : Except PyError PyDict :=
  match dictGetD validated "location" (Value.str "") with
  | Value.str location =>
    if location ≠ "N/A" && !(pyStartsWith location "LD:") &&
        (pyContains location "TR" || pyContains location "tr") then
      Except.ok (dictSet validated "location" (Value.str ("LD: " ++ location)))
    else Except.ok validated
  | Value.null => Except.error PyError.attributeError

/-- Performed-by inference (main.py lines 137-140).  When the check fires
and authenticated-by is `None`, the substring test raises `TypeError`. -/
def performedStep (validated : PyDict) : Except PyError PyDict :=
  if dictLookup validated "performed_by" = some (Value.str "N/A") then
    match dictGetD validated "authenticated_by" (Value.str "") with
    | Value.str auth_by =>
      if auth_by ≠ "N/A" && pyContains auth_by "MD" then
        Except.ok (dictSet validated "performed_by" (Value.str auth_by))
      else Except.ok validated
    | Value.null => Except.error PyError.typeError
  else Except.ok validated

/-- Model of `validate_extracted_data` (main.py lines 110-142): the
normalization loop followed by the four fix-up steps, with Python raises
surfaced as `Except.error`. -/
def validate_extracted_data (data : PyDict) : Except PyError PyDict :=
  match statusStep (data.map (fun kv => (kv.1, normalizeValue kv.2))) with
  | Except.error e => Except.error e
  | Except.ok v1 =>
    match facilityStep v1 with
    | Except.error e => Except.error e
    | Except.ok v2 =>
      match locationStep v2 with
      | Except.error e => Except.error e
      | Except.ok v3 => performedStep v3

/-! ### Parse-failure fallback (main.py lines 258-311) -/

/-- The 16 schema fields of the all-failed sentinel record
(main.py lines 267-284). -/
def failedFieldNames : List String :=
  ["patient_name", "date_of_birth", "gender", "admit_date", "discharge_date",
   "attending_physician", "location", "facility_name", "facility_address",
   "facility_city", "facility_state", "facility_zip", "document_name",
   "document_status", "performed_by", "authenticated_by"]

/-- The sentinel record: every schema field set to the failure marker. -/
def error_data : PyDict :=
  failedFieldNames.map (fun k => (k, Value.str "EXTRACTION_FAILED"))

/-- Failure modes reported by the response-processing stage: the raised
no-JSON `ValueError`, a `json.JSONDecodeError`, and any other exception
(the second handler, main.py line 287). -/
inductive FailureMode
  | noJsonFound
  | jsonDecodeError
  | otherError
deriving DecidableEq

/-- Model of the response-processing stage of `ollama_process_image`
(main.py lines 229-311), given the structured response text and a parse
oracle for `json.loads` (`none` models a `JSONDecodeError`).  Returns the
record handed back to the caller together with the failure mode reported,
if any; the function is total, so no exception propagates. -/
def ollama_process_image (parseJson : String → Option PyDict)
    (response_text : String) : PyDict × Option FailureMode :=
  match extractJsonBlock response_text with
  | ExtractResult.noJson => (error_data, some FailureMode.noJsonFound)
  | ExtractResult.found json_text =>
    match parseJson json_text with
    | none => (error_data, some FailureMode.jsonDecodeError)
    | some extracted_data =>
      match validate_extracted_data extracted_data with
      | Except.ok validated_data => (validated_data, none)
      | Except.error _ => (error_data, some FailureMode.otherError)

/-! ### Correctness of the search primitives

These lemmas characterize `pyFindFrom` and `pyRfindChar` against
position-level occurrence specifications, so that theorems about the
extraction strategy can speak of "the first opening brace" and "the last
closing brace" independently of the search code. -/

/-- Specification: `pat` occurs in `t` at position `i`, at or after
`start`, and at no earlier position at or after `start`. -/
def isFirstOccurrenceFrom (t pat : String) (start i : Nat) : Prop :=
  start ≤ i ∧ pat.toList.isPrefixOf (t.toList.drop i) = true ∧
    ∀ k, k < i → start ≤ k → pat.toList.isPrefixOf (t.toList.drop k) = false

/-- Specification: position `j` holds character `c` and no later position
does. -/
def isLastCharOccurrence (t : String) (c : Char) (j : Nat) : Prop :=
  t.toList[j]? = some c ∧
    ∀ k, k < t.toList.length → j < k → t.toList[k]? ≠ some c

theorem findSubAux_some_iff (pat : List Char) (s : List Char) (i : Nat) :
    findSubAux pat s = some i ↔
      (pat.isPrefixOf (s.drop i) = true ∧
        ∀ k, k < i → pat.isPrefixOf (s.drop k) = false) := by
  induction s generalizing i with
  | nil =>
    rw [findSubAux]
    by_cases hp : pat = []
    · subst hp
      simp only [List.drop_nil]
      constructor
      · intro h
        have : i = 0 := by
          have := Option.some.inj h
          omega
        subst this
        exact ⟨rfl, fun k hk => absurd hk (by omega)⟩
      · rintro ⟨-, hall⟩
        by_cases hi : i = 0
        · subst hi; rfl
        · exact absurd (hall 0 (by omega)) (by simp [List.isPrefixOf])
    · rw [if_neg hp]
      simp only [List.drop_nil]
      constructor
      · intro h; exact absurd h (by simp)
      · rintro ⟨h1, -⟩
        cases pat with
        | nil => exact absurd rfl hp
        | cons a as => simp [List.isPrefixOf] at h1
  | cons c rest ih =>
    rw [findSubAux]
    by_cases hp : pat.isPrefixOf (c :: rest) = true
    · rw [if_pos hp]
      cases i with
      | zero =>
        simp only [List.drop_zero]
        constructor
        · intro _
          exact ⟨hp, fun k hk => absurd hk (by omega)⟩
        · intro _
          trivial
      | succ n =>
        constructor
        · intro h; exact absurd (Option.some.inj h) (by omega)
        · rintro ⟨-, hall⟩
          have := hall 0 (by omega)
          rw [List.drop_zero] at this
          rw [hp] at this
          exact absurd this (by simp)
    · rw [if_neg hp]
      have hp' : pat.isPrefixOf (c :: rest) = false := by
        cases h : pat.isPrefixOf (c :: rest) with
        | true => exact absurd h hp
        | false => rfl
      cases i with
      | zero =>
        simp only [List.drop_zero]
        constructor
        · intro h
          rw [Option.map_eq_some'] at h
          obtain ⟨a, -, ha⟩ := h
          omega
        · rintro ⟨h1, -⟩
          rw [hp'] at h1
          exact absurd h1 (by simp)
      | succ n =>
        rw [Option.map_eq_some']
        constructor
        · rintro ⟨j, hj, hj1⟩
          have hjn : j = n := by omega
          rw [hjn] at hj
          obtain ⟨h1, h2⟩ := (ih n).mp hj
          refine ⟨by simpa using h1, ?_⟩
          intro k hk
          cases k with
          | zero => simpa using hp'
          | succ m => simpa using h2 m (by omega)
        · rintro ⟨h1, h2⟩
          refine ⟨n, (ih n).mpr ⟨by simpa using h1, ?_⟩, rfl⟩
          intro m hm
          simpa using h2 (m + 1) (by omega)

theorem findSubAux_none_iff (pat : List Char) (s : List Char) :
    findSubAux pat s = none ↔ ∀ i, pat.isPrefixOf (s.drop i) = false := by
  induction s with
  | nil =>
    rw [findSubAux]
    by_cases hp : pat = []
    · subst hp
      simp [List.isPrefixOf]
    · rw [if_neg hp]
      simp only [List.drop_nil, true_iff]
      intro i
      cases pat with
      | nil => exact absurd rfl hp
      | cons a as => simp [List.isPrefixOf]
  | cons c rest ih =>
    rw [findSubAux]
    by_cases hp : pat.isPrefixOf (c :: rest) = true
    · rw [if_pos hp]
      constructor
      · intro h; exact absurd h (by simp)
      · intro hall
        have := hall 0
        rw [List.drop_zero, hp] at this
        exact absurd this (by simp)
    · rw [if_neg hp]
      have hp' : pat.isPrefixOf (c :: rest) = false := by
        cases h : pat.isPrefixOf (c :: rest) with
        | true => exact absurd h hp
        | false => rfl
      rw [Option.map_eq_none']
      rw [ih]
      constructor
      · intro h i
        cases i with
        | zero => simpa using hp'
        | succ n => simpa using h n
      · intro h i
        simpa using h (i + 1)

theorem pyFindFrom_eq_some_iff (t pat : String) (start i : Nat) :
    pyFindFrom t pat start = some i ↔ isFirstOccurrenceFrom t pat start i := by
  unfold pyFindFrom isFirstOccurrenceFrom
  rw [Option.map_eq_some']
  constructor
  · rintro ⟨j, hj, rfl⟩
    obtain ⟨h1, h2⟩ := (findSubAux_some_iff _ _ _).mp hj
    rw [List.drop_drop] at h1
    refine ⟨by omega, by rwa [Nat.add_comm start j] at h1, ?_⟩
    intro k hk1 hk2
    have := h2 (k - start) (by omega)
    rw [List.drop_drop] at this
    have hks : start + (k - start) = k := by omega
    rwa [hks] at this
  · rintro ⟨hs, h1, h2⟩
    refine ⟨i - start, (findSubAux_some_iff _ _ _).mpr ⟨?_, ?_⟩, by omega⟩
    · rw [List.drop_drop]
      have hi : start + (i - start) = i := by omega
      rwa [hi]
    · intro k hk
      rw [List.drop_drop]
      exact h2 (start + k) (by omega) (by omega)

theorem pyContains_iff_exists (t pat : String) :
    pyContains t pat = true ↔
      ∃ i, pat.toList.isPrefixOf (t.toList.drop i) = true := by
  unfold pyContains pyFindFrom
  rw [List.drop_zero, Option.isSome_map']
  cases h : findSubAux pat.toList t.toList with
  | some j =>
    simp only [Option.isSome_some, true_iff]
    exact ⟨j, ((findSubAux_some_iff _ _ _).mp h).1⟩
  | none =>
    constructor
    · intro habs
      exact absurd habs (by simp)
    · rintro ⟨i, hi⟩
      have := (findSubAux_none_iff _ _).mp h i
      rw [hi] at this
      exact absurd this (by simp)

theorem pyRfindCharAux_isSome_of_mem (c : Char) (s : List Char) (k : Nat)
    (h : s[k]? = some c) : (pyRfindCharAux c s).isSome = true := by
  induction s generalizing k with
  | nil =>
    rw [List.getElem?_nil] at h
    exact absurd h (by simp)
  | cons x rest ih =>
    rw [pyRfindCharAux]
    cases hr : pyRfindCharAux c rest with
    | some j => simp
    | none =>
      cases k with
      | zero =>
        rw [List.getElem?_cons_zero] at h
        have hx : x = c := Option.some.inj h
        simp [hx]
      | succ n =>
        rw [List.getElem?_cons_succ] at h
        have := ih n h
        rw [hr] at this
        exact absurd this (by simp)

theorem pyRfindCharAux_mem_of_some (c : Char) (s : List Char) (j : Nat)
    (h : pyRfindCharAux c s = some j) : s[j]? = some c := by
  induction s generalizing j with
  | nil => exact absurd h (by simp [pyRfindCharAux])
  | cons x rest ih =>
    rw [pyRfindCharAux] at h
    cases hr : pyRfindCharAux c rest with
    | some m =>
      rw [hr] at h
      have hj : j = m + 1 := by
        have := Option.some.inj h
        omega
      subst hj
      rw [List.getElem?_cons_succ]
      exact ih m hr
    | none =>
      rw [hr] at h
      by_cases hx : x = c
      · rw [if_pos hx] at h
        have hj : j = 0 := by
          have := Option.some.inj h
          omega
        subst hj
        rw [List.getElem?_cons_zero, hx]
      · rw [if_neg hx] at h
        exact absurd h (by simp)

theorem pyRfindCharAux_none_iff (c : Char) (s : List Char) :
    pyRfindCharAux c s = none ↔ ∀ k : Nat, s[k]? ≠ some c := by
  constructor
  · intro h k hk
    have := pyRfindCharAux_isSome_of_mem c s k hk
    rw [h] at this
    exact absurd this (by simp)
  · intro hall
    cases h : pyRfindCharAux c s with
    | none => rfl
    | some j => exact absurd (pyRfindCharAux_mem_of_some c s j h) (hall j)

theorem pyRfindCharAux_some_iff (c : Char) (s : List Char) (j : Nat) :
    pyRfindCharAux c s = some j ↔
      (s[j]? = some c ∧ ∀ k, j < k → s[k]? ≠ some c) := by
  induction s generalizing j with
  | nil =>
    rw [pyRfindCharAux]
    simp
  | cons x rest ih =>
    rw [pyRfindCharAux]
    cases hr : pyRfindCharAux c rest with
    | some m =>
      obtain ⟨hm1, hm2⟩ := (ih m).mp hr
      constructor
      · intro h
        have hj : j = m + 1 := by
          have := Option.some.inj h
          omega
        subst hj
        refine ⟨by simpa using hm1, ?_⟩
        intro k hk
        cases k with
        | zero => omega
        | succ n => simpa using hm2 n (by omega)
      · rintro ⟨h1, h2⟩
        have hge : ¬ j < m + 1 := by
          intro hlt
          exact h2 (m + 1) hlt (by simpa using hm1)
        have hle : ¬ m + 1 < j := by
          intro hgt
          cases j with
          | zero => omega
          | succ n =>
            rw [List.getElem?_cons_succ] at h1
            exact absurd h1 (hm2 n (by omega))
        have hj : j = m + 1 := by omega
        rw [hj]
    | none =>
      have hnone := (pyRfindCharAux_none_iff c rest).mp hr
      by_cases hx : x = c
      · subst hx
        rw [if_pos rfl]
        constructor
        · intro h
          have hj : j = 0 := by
            have := Option.some.inj h
            omega
          subst hj
          refine ⟨by simp, ?_⟩
          intro k hk
          cases k with
          | zero => omega
          | succ n => simpa using hnone n
        · rintro ⟨h1, h2⟩
          cases j with
          | zero => rfl
          | succ n =>
            rw [List.getElem?_cons_succ] at h1
            exact absurd h1 (hnone n)
      · rw [if_neg hx]
        constructor
        · intro h; exact absurd h (by simp)
        · rintro ⟨h1, h2⟩
          cases j with
          | zero =>
            rw [List.getElem?_cons_zero] at h1
            exact absurd (Option.some.inj h1) hx
          | succ n =>
            rw [List.getElem?_cons_succ] at h1
            exact absurd h1 (hnone n)

theorem pyRfindChar_eq_some_iff (t : String) (c : Char) (j : Nat) :
    pyRfindChar t c = some j ↔ isLastCharOccurrence t c j := by
  rw [pyRfindChar, pyRfindCharAux_some_iff, isLastCharOccurrence]
  constructor
  · rintro ⟨h1, h2⟩
    exact ⟨h1, fun k _ hjk => h2 k hjk⟩
  · rintro ⟨h1, h2⟩
    refine ⟨h1, ?_⟩
    intro k hjk
    by_cases hk : k < t.toList.length
    · exact h2 k hk hjk
    · rw [List.getElem?_eq_none (by omega)]
      simp

theorem singleton_isPrefixOf_iff (c : Char) (l : List Char) (j : Nat) :
    [c].isPrefixOf (l.drop j) = true ↔ l[j]? = some c := by
  rw [← List.head?_drop]
  cases l.drop j with
  | nil => simp [List.isPrefixOf]
  | cons y ys =>
    simp only [List.isPrefixOf, List.head?_cons]
    constructor
    · intro h
      have : c = y := by simpa using h
      rw [this]
    · intro h
      have : y = c := Option.some.inj h
      simp [this]

/-- C4 (amended): the extraction strategy is ordered with first match
winning.  Part 1 is the acceptance example: prose around a fenced json
block parses out the object text.  Part 2: the no-structured-data failure
is signalled exactly when there is no json fence tag and not both an
opening and a closing brace appear in the text (in either order; the
original claim required a closing brace after an opening one, but mere
presence in any order selects the brace branch).  Part 3: without a
fence, with the first opening brace at `i` and the last closing brace at
`j`, the extracted substring runs from `i` through `j` inclusive — also
when `j < i`, where the slice is empty.  Part 4: with the first fence tag
at `i` and the next fence marker at `j`, the text between them is
extracted and stripped. -/
theorem extractJsonBlock_strategy :
    extractJsonBlock "Here is the result:\n```json\n\x7b\"a\": 1\x7d\n```\nThanks" =
      ExtractResult.found "\x7b\"a\": 1\x7d" ∧
    (∀ t, extractJsonBlock t = ExtractResult.noJson ↔
      (pyContains t "```json" = false ∧
        (pyContains t "\x7b" = false ∨ pyContains t "\x7d" = false))) ∧
    (∀ t i j, pyContains t "```json" = false →
      isFirstOccurrenceFrom t "\x7b" 0 i →
      isLastCharOccurrence t '\x7d' j →
      extractJsonBlock t = ExtractResult.found (pySlice t i (j + 1))) ∧
    (∀ t i j, isFirstOccurrenceFrom t "```json" 0 i →
      isFirstOccurrenceFrom t "```" (i + 7) j →
      extractJsonBlock t = ExtractResult.found (pyStrip (pySlice t (i + 7) j))) := by
  refine ⟨by rfl, ?_, ?_, ?_⟩
  · intro t
    constructor
    · intro h
      by_cases hf : pyContains t "```json" = true
      · rw [extractJsonBlock, if_pos hf] at h
        exact absurd h (by simp)
      · have hf' : pyContains t "```json" = false := by
          cases hv : pyContains t "```json" with
          | true => exact absurd hv hf
          | false => rfl
        refine ⟨hf', ?_⟩
        cases hb : pyContains t "\x7b" with
        | false => exact Or.inl rfl
        | true =>
          cases hd : pyContains t "\x7d" with
          | false => exact Or.inr rfl
          | true =>
            rw [extractJsonBlock, if_neg hf, if_pos (by rw [hb, hd]; rfl)] at h
            exact absurd h (by simp)
    · rintro ⟨h1, h2⟩
      have hb : (pyContains t "\x7b" && pyContains t "\x7d") = false := by
        rcases h2 with h2 | h2 <;> rw [h2] <;> simp
      rw [extractJsonBlock, if_neg (by rw [h1]; simp), if_neg (by rw [hb]; simp)]
  · intro t i j hf hfirst hlast
    have h1 : pyFindFrom t "\x7b" 0 = some i :=
      (pyFindFrom_eq_some_iff t "\x7b" 0 i).mpr hfirst
    have h2 : pyRfindChar t '\x7d' = some j :=
      (pyRfindChar_eq_some_iff t '\x7d' j).mpr hlast
    have hcb : pyContains t "\x7b" = true := by
      show (pyFindFrom t "\x7b" 0).isSome = true
      rw [h1]
      rfl
    have hcd : pyContains t "\x7d" = true := by
      rw [pyContains_iff_exists]
      refine ⟨j, ?_⟩
      have hl : ("\x7d" : String).toList = ['\x7d'] := rfl
      rw [hl, singleton_isPrefixOf_iff]
      exact hlast.1
    rw [extractJsonBlock, if_neg (by rw [hf]; simp), if_pos (by rw [hcb, hcd]; rfl),
      h1, h2]
    rfl
  · intro t i j hocc1 hocc2
    have h1 : pyFindFrom t "```json" 0 = some i :=
      (pyFindFrom_eq_some_iff t "```json" 0 i).mpr hocc1
    have h2 : pyFindFrom t "```" (i + 7) = some j :=
      (pyFindFrom_eq_some_iff t "```" (i + 7) j).mpr hocc2
    have hf : pyContains t "```json" = true := by
      show (pyFindFrom t "```json" 0).isSome = true
      rw [h1]
      rfl
    rw [extractJsonBlock, if_pos hf, h1]
    simp only [Option.getD_some, fenceEnd, h2]

/-- C4 counterexample: on the two-character input holding a closing brace
and then an opening brace there is no fence tag and no opening brace with
a later closing brace, yet the extractor does not signal the no-JSON
failure as the claim requires: it extracts the empty substring, which
goes on to fail JSON decoding instead. -/
theorem extractJsonBlock_unordered_braces :
    extractJsonBlock "\x7d\x7b" = ExtractResult.found "" ∧
    extractJsonBlock "\x7d\x7b" ≠ ExtractResult.noJson ∧
    pyContains "\x7d\x7b" "```json" = false ∧
    ∀ i j : Nat, i < j → "\x7d\x7b".toList[i]? = some '\x7b' →
      "\x7d\x7b".toList[j]? ≠ some '\x7d' := by
  have h : extractJsonBlock "\x7d\x7b" = ExtractResult.found "" := by rfl
  refine ⟨h, by rw [h]; simp, by decide, ?_⟩
  intro i j hij hi
  have hl : ("\x7d\x7b" : String).toList = ['\x7d', '\x7b'] := rfl
  rw [hl] at hi ⊢
  cases i with
  | zero =>
    rw [List.getElem?_cons_zero] at hi
    exact absurd (Option.some.inj hi) (by decide)
  | succ n =>
    cases n with
    | zero =>
      rw [List.getElem?_eq_none (by simp only [List.length_cons, List.length_nil]; omega)]
      simp
    | succ m =>
      rw [List.getElem?_eq_none (by simp only [List.length_cons, List.length_nil]; omega)] at hi
      exact absurd hi (by simp)

/-- Witness for C4: the brace clause of the strategy theorem applied at a
concrete input with first opening brace at 1 and last closing brace at 3
extracts the bracketed substring. -/
theorem extractJsonBlock_strategy_witness :
    extractJsonBlock "x\x7b1\x7dy" = ExtractResult.found "\x7b1\x7d" := by
  have h := extractJsonBlock_strategy.2.2.1 "x\x7b1\x7dy" 1 3 (by decide)
    (by
      refine ⟨by omega, by rfl, ?_⟩
      intro k hk hk0
      have hk1 : k = 0 := by omega
      subst hk1
      rfl)
    (by
      refine ⟨by rfl, ?_⟩
      intro k hk5 hk3
      have hk4 : k = 4 := by
        have : ("x\x7b1\x7dy" : String).toList.length = 5 := by rfl
        omega
      subst hk4
      decide)
  have hs : pySlice "x\x7b1\x7dy" 1 (3 + 1) = "\x7b1\x7d" := by rfl
  rw [hs] at h
  exact h

/-- C5: whenever the model response contains no JSON, or the extracted
substring fails JSON decoding, the response-processing stage returns the
sentinel record in which all 16 schema fields (patient_name through
authenticated_by) carry the failure marker, and the two cases are
reported as distinct failure modes; the stage is a total function of the
response, so no exception reaches the caller and the batch continues. -/
theorem ollama_process_image_failure (parseJson : String → Option PyDict)
    (response_text : String) :
    (extractJsonBlock response_text = ExtractResult.noJson →
      ollama_process_image parseJson response_text =
        (error_data, some FailureMode.noJsonFound)) ∧
    (∀ json_text, extractJsonBlock response_text = ExtractResult.found json_text →
      parseJson json_text = none →
      ollama_process_image parseJson response_text =
        (error_data, some FailureMode.jsonDecodeError)) ∧
    FailureMode.noJsonFound ≠ FailureMode.jsonDecodeError ∧
    failedFieldNames.length = 16 ∧
    (∀ k ∈ failedFieldNames,
      dictLookup error_data k = some (Value.str "EXTRACTION_FAILED")) := by
  refine ⟨?_, ?_, by decide, by decide, by decide⟩
  · intro h
    rw [ollama_process_image, h]
  · intro json_text h hp
    rw [ollama_process_image, h]
    simp only [hp]

/-- Witness for C5: a response with no fence and no braces yields the
sentinel record with the no-JSON failure mode. -/
theorem ollama_process_image_failure_witness :
    ollama_process_image (fun _ => none) "no structured data" =
      (error_data, some FailureMode.noJsonFound) :=
  (ollama_process_image_failure (fun _ => none) "no structured data").1 (by rfl)

/-! ### FieldValidator lemmas -/

theorem dictLookup_normalize (d : PyDict) (k : String) :
    dictLookup (d.map (fun kv => (kv.1, normalizeValue kv.2))) k =
      (dictLookup d k).map normalizeValue := by
  induction d with
  | nil => rfl
  | cons kv rest ih =>
    obtain ⟨k₀, v₀⟩ := kv
    rw [List.map_cons, dictLookup, dictLookup]
    by_cases hk : k₀ = k
    · rw [if_pos hk, if_pos hk]
      rfl
    · rw [if_neg hk, if_neg hk]
      exact ih

theorem dictLookup_dictSet_ne (d : PyDict) (k k2 : String) (v : Value)
    (h : k ≠ k2) : dictLookup (dictSet d k2 v) k = dictLookup d k := by
  induction d with
  | nil =>
    simp [dictSet, dictLookup, Ne.symm h]
  | cons kv rest ih =>
    obtain ⟨k₀, v₀⟩ := kv
    rw [dictSet]
    by_cases h0 : k₀ = k2
    · rw [if_pos h0, dictLookup, dictLookup]
      have hk : ¬ k₀ = k := fun hc => h (hc ▸ h0)
      rw [if_neg hk, if_neg hk]
    · rw [if_neg h0, dictLookup, dictLookup]
      by_cases hk : k₀ = k
      · rw [if_pos hk, if_pos hk]
      · rw [if_neg hk, if_neg hk]
        exact ih

theorem statusStep_lookup_ne (d d2 : PyDict) (k : String)
    (h : statusStep d = Except.ok d2) (hk : k ≠ "document_status") :
    dictLookup d2 k = dictLookup d k := by
  rw [statusStep] at h
  split at h
  · split at h
    · split at h
      · rw [← Except.ok.inj h]
        exact dictLookup_dictSet_ne d k "document_status" (Value.str "Verified") hk
      · rw [← Except.ok.inj h]
    · exact absurd h (by simp)
  · rw [← Except.ok.inj h]

theorem facilityStep_lookup_ne (d d2 : PyDict) (k : String)
    (h : facilityStep d = Except.ok d2) (hk : k ≠ "facility_name") :
    dictLookup d2 k = dictLookup d k := by
  rw [facilityStep] at h
  split at h
  · split at h
    · rw [← Except.ok.inj h]
      exact dictLookup_dictSet_ne d k "facility_name"
        (Value.str "White Oak Medical Center") hk
    · rw [← Except.ok.inj h]
  · exact absurd h (by simp)

theorem locationStep_lookup_ne (d d2 : PyDict) (k : String)
    (h : locationStep d = Except.ok d2) (hk : k ≠ "location") :
    dictLookup d2 k = dictLookup d k := by
  rw [locationStep] at h
  split at h
  · rename_i location heq
    split at h
    · rw [← Except.ok.inj h]
      exact dictLookup_dictSet_ne d k "location"
        (Value.str ("LD: " ++ location)) hk
    · rw [← Except.ok.inj h]
  · exact absurd h (by simp)

theorem performedStep_lookup_ne (d d2 : PyDict) (k : String)
    (h : performedStep d = Except.ok d2) (hk : k ≠ "performed_by") :
    dictLookup d2 k = dictLookup d k := by
  rw [performedStep] at h
  split at h
  · split at h
    · rename_i auth_by heq
      split at h
      · rw [← Except.ok.inj h]
        exact dictLookup_dictSet_ne d k "performed_by" (Value.str auth_by) hk
      · rw [← Except.ok.inj h]
    · exact absurd h (by simp)
  · rw [← Except.ok.inj h]

theorem facilityStep_na (d : PyDict)
    (h : dictLookup d "facility_name" = some (Value.str "N/A")) :
    facilityStep d = Except.ok d := by
  rw [facilityStep, dictGetD, h, Option.getD_some]
  rfl

theorem locationStep_na (d : PyDict)
    (h : dictLookup d "location" = some (Value.str "N/A")) :
    locationStep d = Except.ok d := by
  rw [locationStep, dictGetD, h, Option.getD_some]
  rfl

/-- C6 (amended): every field whose string value lowercased as-is (without
trimming) is one of the placeholder variants is set by the normalization
pass to the canonical "N/A" sentinel, and for every field other than
document_status and performed_by (which the later inference steps may
overwrite) that sentinel survives to the returned mapping whenever
validation returns one.  Values whose lowercase form matches only after
trimming are merely trimmed, not collapsed. -/
theorem validate_na_normalization (d : PyDict) (k s : String) (d2 : PyDict)
    (hk1 : k ≠ "document_status") (hk2 : k ≠ "performed_by")
    (hv : dictLookup d k = some (Value.str s))
    (hs : pyLower s ∈ sentinelVariants)
    (hok : validate_extracted_data d = Except.ok d2) :
    dictLookup d2 k = some (Value.str "N/A") := by
  have h1 : dictLookup (d.map (fun kv => (kv.1, normalizeValue kv.2))) k =
      some (Value.str "N/A") := by
    rw [dictLookup_normalize, hv, Option.map_some', normalizeValue, if_pos hs]
  rw [validate_extracted_data] at hok
  split at hok
  · exact absurd hok (by simp)
  · rename_i v1 heq1
    split at hok
    · exact absurd hok (by simp)
    · rename_i v2 heq2
      split at hok
      · exact absurd hok (by simp)
      · rename_i v3 heq3
        have hv1 : dictLookup v1 k = some (Value.str "N/A") := by
          rw [statusStep_lookup_ne _ _ k heq1 hk1]
          exact h1
        have hv2 : dictLookup v2 k = some (Value.str "N/A") := by
          by_cases hkf : k = "facility_name"
          · subst hkf
            rw [facilityStep_na v1 hv1] at heq2
            rw [← Except.ok.inj heq2]
            exact hv1
          · rw [facilityStep_lookup_ne _ _ k heq2 hkf]
            exact hv1
        have hv3 : dictLookup v3 k = some (Value.str "N/A") := by
          by_cases hkl : k = "location"
          · subst hkl
            rw [locationStep_na v2 hv2] at heq3
            rw [← Except.ok.inj heq3]
            exact hv2
          · rw [locationStep_lookup_ne _ _ k heq3 hkl]
            exact hv2
        rw [performedStep_lookup_ne _ _ k hok hk2]
        exact hv3

/-- C6 counterexample: the value with surrounding whitespace whose trimmed,
lowercased form is exactly the placeholder "n/a" is not collapsed to the
sentinel: the validator returns the trimmed value "n/a", because the
placeholder test reads the original unstripped value. -/
theorem validate_whitespace_na_not_collapsed :
    pyLower (pyStrip " n/a ") ∈ sentinelVariants ∧
    validate_extracted_data [("patient_name", Value.str " n/a ")] =
      Except.ok [("patient_name", Value.str "n/a")] ∧
    Value.str "n/a" ≠ Value.str "N/A" := by
  refine ⟨by decide, by rfl, by decide⟩

/-- Witness for C6: a patient_name field holding exactly "N/A" comes out
of validation as the canonical sentinel. -/
theorem validate_na_normalization_witness :
    dictLookup [("patient_name", Value.str "N/A")] "patient_name" =
      some (Value.str "N/A") :=
  validate_na_normalization [("patient_name", Value.str "N/A")] "patient_name"
    "N/A" [("patient_name", Value.str "N/A")]
    (by decide) (by decide) (by rfl) (by decide) (by rfl)

/-! ### FieldValidator totality on all-string mappings -/

/-- Field mappings whose values are all strings (no JSON nulls). -/
def allStringValues (d : PyDict) : Prop :=
  ∀ kv ∈ d, ∃ s, kv.2 = Value.str s

theorem dictLookup_mem (d : PyDict) (k : String) (v : Value)
    (h : dictLookup d k = some v) : (k, v) ∈ d := by
  induction d with
  | nil => exact absurd h (by simp [dictLookup])
  | cons kv0 rest ih =>
    obtain ⟨k₀, v₀⟩ := kv0
    rw [dictLookup] at h
    by_cases h0 : k₀ = k
    · rw [if_pos h0] at h
      rw [← h0, ← Option.some.inj h]
      exact List.mem_cons_self _ _
    · rw [if_neg h0] at h
      exact List.mem_cons_of_mem _ (ih h)

theorem allStringValues_normalize (d : PyDict) (h : allStringValues d) :
    allStringValues (d.map (fun kv => (kv.1, normalizeValue kv.2))) := by
  intro kv hkv
  rw [List.mem_map] at hkv
  obtain ⟨kv0, hkv0, rfl⟩ := hkv
  obtain ⟨s, hs⟩ := h kv0 hkv0
  by_cases hv : pyLower s ∈ sentinelVariants
  · exact ⟨"N/A", by simp [hs, normalizeValue, hv]⟩
  · exact ⟨pyStrip s, by simp [hs, normalizeValue, hv]⟩

theorem allStringValues_dictSet (d : PyDict) (k s : String)
    (h : allStringValues d) : allStringValues (dictSet d k (Value.str s)) := by
  induction d with
  | nil =>
    intro kv hkv
    rw [dictSet, List.mem_singleton] at hkv
    subst hkv
    exact ⟨s, rfl⟩
  | cons kv0 rest ih =>
    obtain ⟨k₀, v₀⟩ := kv0
    intro kv hkv
    rw [dictSet] at hkv
    by_cases h0 : k₀ = k
    · rw [if_pos h0] at hkv
      rcases List.mem_cons.mp hkv with rfl | hm
      · exact ⟨s, rfl⟩
      · exact h _ (List.mem_cons_of_mem _ hm)
    · rw [if_neg h0] at hkv
      rcases List.mem_cons.mp hkv with rfl | hm
      · exact h _ (List.mem_cons_self _ _)
      · exact ih (fun kv2 hkv2 => h kv2 (List.mem_cons_of_mem _ hkv2)) _ hm

theorem allStringValues_getD (d : PyDict) (k : String) (h : allStringValues d) :
    ∃ s, dictGetD d k (Value.str "") = Value.str s := by
  rw [dictGetD]
  cases hl : dictLookup d k with
  | none => exact ⟨"", rfl⟩
  | some v =>
    obtain ⟨s, hs⟩ := h (k, v) (dictLookup_mem d k v hl)
    exact ⟨s, by rw [Option.getD_some]; exact hs⟩

theorem statusStep_ok (d : PyDict) (h : allStringValues d) :
    ∃ d2, statusStep d = Except.ok d2 ∧ allStringValues d2 := by
  rw [statusStep]
  by_cases hc : dictLookup d "document_status" = some (Value.str "N/A")
  · rw [if_pos hc]
    obtain ⟨s, hs⟩ := allStringValues_getD d "authenticated_by" h
    simp only [hs]
    by_cases hcc : (pyContains (pyLower s) "verified" || pyContains (pyLower s) "auth") = true
    · rw [if_pos hcc]
      exact ⟨_, rfl, allStringValues_dictSet d "document_status" "Verified" h⟩
    · rw [if_neg hcc]
      exact ⟨d, rfl, h⟩
  · rw [if_neg hc]
    exact ⟨d, rfl, h⟩

theorem facilityStep_ok (d : PyDict) (h : allStringValues d) :
    ∃ d2, facilityStep d = Except.ok d2 ∧ allStringValues d2 := by
  rw [facilityStep]
  obtain ⟨s, hs⟩ := allStringValues_getD d "facility_name" h
  simp only [hs]
  by_cases hcc : (pyContains (pyLower s) "adventist" &&
      !pyContains (pyLower s) "white oak") = true
  · rw [if_pos hcc]
    exact ⟨_, rfl, allStringValues_dictSet d "facility_name" "White Oak Medical Center" h⟩
  · rw [if_neg hcc]
    exact ⟨d, rfl, h⟩

theorem locationStep_ok (d : PyDict) (h : allStringValues d) :
    ∃ d2, locationStep d = Except.ok d2 ∧ allStringValues d2 := by
  rw [locationStep]
  obtain ⟨s, hs⟩ := allStringValues_getD d "location" h
  simp only [hs]
  by_cases hcc : ((s ≠ "N/A") && !pyStartsWith s "LD:" &&
      (pyContains s "TR" || pyContains s "tr")) = true
  · rw [if_pos hcc]
    exact ⟨_, rfl, allStringValues_dictSet d "location" ("LD: " ++ s) h⟩
  · rw [if_neg hcc]
    exact ⟨d, rfl, h⟩

theorem performedStep_ok (d : PyDict) (h : allStringValues d) :
    ∃ d2, performedStep d = Except.ok d2 ∧ allStringValues d2 := by
  rw [performedStep]
  by_cases hc : dictLookup d "performed_by" = some (Value.str "N/A")
  · rw [if_pos hc]
    obtain ⟨s, hs⟩ := allStringValues_getD d "authenticated_by" h
    simp only [hs]
    by_cases hcc : ((s ≠ "N/A") && pyContains s "MD") = true
    · rw [if_pos hcc]
      exact ⟨_, rfl, allStringValues_dictSet d "performed_by" s h⟩
    · rw [if_neg hcc]
      exact ⟨d, rfl, h⟩
  · rw [if_neg hc]
    exact ⟨d, rfl, h⟩

/-- C7 (amended): the validator never raises on a parsed field mapping
whose values are all strings, returning a normalized mapping; a null
(Python None) value in a consulted field makes it raise, so the original
unconditional never-raises contract does not hold for the string/null
record model. -/
theorem validate_total_on_strings (d : PyDict)
    (h : ∀ kv ∈ d, ∃ s, kv.2 = Value.str s) :
    ∃ d2, validate_extracted_data d = Except.ok d2 := by
  have h0 : allStringValues (d.map (fun kv => (kv.1, normalizeValue kv.2))) :=
    allStringValues_normalize d h
  obtain ⟨d1, hd1, h1⟩ := statusStep_ok _ h0
  obtain ⟨d2, hd2, h2⟩ := facilityStep_ok _ h1
  obtain ⟨d3, hd3, h3⟩ := locationStep_ok _ h2
  obtain ⟨d4, hd4, h4⟩ := performedStep_ok _ h3
  refine ⟨d4, ?_⟩
  rw [validate_extracted_data]
  simp only [hd1, hd2, hd3, hd4]

/-- C7 counterexample: a mapping in which facility_name is JSON null makes
`validate_extracted_data` raise `AttributeError` (Python calls `.lower()`
on None), so the validator does not satisfy the never-raising contract on
string/null mappings. -/
theorem validate_raises_on_null_facility :
    validate_extracted_data [("facility_name", Value.null)] =
      Except.error PyError.attributeError := by rfl

/-- Witness for C7: a concrete all-string mapping validates successfully. -/
theorem validate_total_on_strings_witness :
    ∃ d2, validate_extracted_data [("patient_name", Value.str "Jane Doe")] =
      Except.ok d2 :=
  validate_total_on_strings [("patient_name", Value.str "Jane Doe")]
    (by
      intro kv hkv
      rw [List.mem_singleton] at hkv
      subst hkv
      exact ⟨"Jane Doe", rfl⟩)

/-! ### BatchRunner (main.py lines 358-463)

The external PDF rasterizer and model calls are abstracted into an
environment assigning each filename its per-document outcome; the loop
body is a fold over the to-process list. -/

/-- Per-document behavior of the external calls, as seen by the main.py
batch loop: rasterization fails (`convert_pdf_to_images` returns an empty
dict, caught at lines 405-408), an exception reaches the per-document
handler (lines 445-451), or processing completes with a header record and
signature date. -/
inductive DocResult
  | convFail
  | raised
  | ok (header_info : PyDict) (sig_date : String)

/-- One write to the cumulative CSV file. -/
inductive CsvWrite
  | header (columns : List String)
  | row (cells : List Value)
deriving DecidableEq

/-- The 17 expected CSV columns (main.py lines 383-388). -/
def expected_columns : List String :=
  ["patient_name", "date_of_birth", "gender", "admit_date", "discharge_date",
   "attending_physician", "location", "facility_name", "facility_address",
   "facility_city", "facility_state", "facility_zip", "document_name",
   "document_status", "performed_by", "authenticated_by",
   "electronically_signed_date"]

/-- Mutable state of the main.py batch loop. -/
structure MainState where
  processed : List String
  successful_count : Nat
  error_count : Nat
  csv : List CsvWrite
  checkpoint_file : String

/-- Model of `processed.add(filename)` on the Python set, by membership. -/
def setInsert (s : List String) (x : String) : List String :=
  if x ∈ s then s else s ++ [x]

/-- Row construction (main.py line 424): one cell per expected column via
`header_info.get(col, "N/A")`. -/
def mkRow (header_info : PyDict) : List Value :=
  expected_columns.map (fun col => dictGetD header_info col (Value.str "N/A"))

/-- The record augmentations of main.py lines 419-421 before the row is
written. -/
def augmentRecord (header_info : PyDict) (sig_date filename timestamp : String) :
    PyDict :=
  dictSet (dictSet (dictSet header_info "electronically_signed_date"
    (Value.str sig_date)) "document_name" (Value.str filename))
    "processed_timestamp" (Value.str timestamp)

/-- One iteration of the main.py for-loop (lines 398-451) on `filename`.
On conversion failure the loop counts an error and continues WITHOUT
adding the file to the checkpoint set (the `continue` at line 408 skips
lines 429-430 and 449-450); on an exception it counts an error and
checkpoints; on success it appends a CSV row and checkpoints. -/
def mainStep (env : String → DocResult) (timestamp : String) (st : MainState)
    (filename : String) : MainState :=
  match env filename with
  | DocResult.convFail =>
    { st with error_count := st.error_count + 1 }
  | DocResult.raised =>
    let processed := setInsert st.processed filename
    { st with
      error_count := st.error_count + 1,
      processed := processed,
      checkpoint_file := save_checkpoint processed }
  | DocResult.ok header_info sig_date =>
    let record := augmentRecord header_info sig_date filename timestamp
    let processed := setInsert st.processed filename
    { st with
      successful_count := st.successful_count + 1,
      csv := st.csv ++ [CsvWrite.row (mkRow record)],
      processed := processed,
      checkpoint_file := save_checkpoint processed }

/-- Filename filter of main.py lines 367-370: Python
`fname.lower().endswith(".pdf")`. -/
def isPdfFilename (fname : String) : Bool :=
  (".pdf" : String).toList.isSuffixOf (pyLower fname).toList

/-- The to-process list (main.py lines 364-373): the directory listing
filtered to PDF names and against the loaded checkpoint set. -/
def toProcessList (listing : List String) (processed : List String) : List String :=
  (listing.filter (fun fname => isPdfFilename fname)).filter
    (fun f => !(processed.contains f))

/-- The whole main.py run (lines 358-463): load the checkpoint set, list
and filter the directory, return early when nothing is to process
(lines 375-377, before the CSV header is prepared), otherwise create the
header when the CSV file is absent (lines 389-391) and run the loop. -/
def mainRun (env : String → DocResult) (timestamp : String)
    (listing : List String) (checkpoint : List String) (csvExists : Bool) :
    MainState :=
  if toProcessList listing checkpoint = [] then
    { processed := checkpoint
      successful_count := 0
      error_count := 0
      csv := []
      checkpoint_file := save_checkpoint checkpoint }
  else
    (toProcessList listing checkpoint).foldl (mainStep env timestamp)
      { processed := checkpoint
        successful_count := 0
        error_count := 0
        csv := if csvExists then [] else [CsvWrite.header expected_columns]
        checkpoint_file := save_checkpoint checkpoint }

/-! ### Facesheet BatchRunner (main_facesheet_extraction.py lines 461-545)

Unlike main.py, this loop marks the document processed regardless of
success (lines 516-518), also when `process_facesheet_pdf` returned False
because rasterization or extraction failed. -/

/-- Per-document outcome of `process_facesheet_pdf` as its caller sees it:
returned False after a conversion failure (lines 399-401), returned False
after an extraction failure (lines 406-408), raised, or returned True. -/
inductive FsDocResult
  | convFail
  | extractFail
  | raised
  | ok

/-- Mutable state of the facesheet batch loop. -/
structure FsState where
  processed : List String
  successful_count : Nat
  error_count : Nat
  checkpoint_file : String

/-- One iteration of the facesheet for-loop (lines 504-533): every path
counts the document and then checkpoints it. -/
def facesheetStep (env : String → FsDocResult) (st : FsState)
    (filename : String) : FsState :=
  match env filename with
  | FsDocResult.ok =>
    let processed := setInsert st.processed filename
    { st with
      successful_count := st.successful_count + 1,
      processed := processed,
      checkpoint_file := save_checkpoint processed }
  | FsDocResult.convFail =>
    let processed := setInsert st.processed filename
    { st with
      error_count := st.error_count + 1,
      processed := processed,
      checkpoint_file := save_checkpoint processed }
  | FsDocResult.extractFail =>
    let processed := setInsert st.processed filename
    { st with
      error_count := st.error_count + 1,
      processed := processed,
      checkpoint_file := save_checkpoint processed }
  | FsDocResult.raised =>
    let processed := setInsert st.processed filename
    { st with
      error_count := st.error_count + 1,
      processed := processed,
      checkpoint_file := save_checkpoint processed }

/-- The facesheet batch run (lines 461-545): same listing, filtering and
checkpoint gating as main.py, then the loop. -/
def facesheetRun (env : String → FsDocResult) (listing : List String)
    (checkpoint : List String) : FsState :=
  (toProcessList listing checkpoint).foldl (facesheetStep env)
    { processed := checkpoint
      successful_count := 0
      error_count := 0
      checkpoint_file := save_checkpoint checkpoint }

/-- C1: at the failing input — a directory with a single PDF whose
rasterization fails — the main.py batch runner counts the document as an
error but does NOT add its filename to the checkpoint set before moving
on: the conversion-failure branch skips the checkpoint update that every
other path performs, so the document will be reprocessed by a later run.
The facesheet runner checkpoints the same failure, as the spec describes
for both. -/
theorem convFail_not_checkpointed :
    (mainRun (fun _ => DocResult.convFail) "t" ["doc.pdf"] [] true).error_count
      = 1 ∧
    "doc.pdf" ∉
      (mainRun (fun _ => DocResult.convFail) "t" ["doc.pdf"] [] true).processed ∧
    (facesheetRun (fun _ => FsDocResult.convFail) ["doc.pdf"] []).error_count
      = 1 ∧
    "doc.pdf" ∈
      (facesheetRun (fun _ => FsDocResult.convFail) ["doc.pdf"] []).processed := by
  refine ⟨by rfl, by decide, by rfl, by decide⟩

/-- C2: after a first main.py run in which the only document failed
rasterization, the second run over the unchanged directory with the
intact checkpoint computes the same document in its to-process list
again — the second run does not process zero documents.  When the same
document instead fails with an exception, or succeeds, it is checkpointed
and the second run's to-process list is empty. -/
theorem second_run_not_empty_after_convFail :
    toProcessList ["doc.pdf"]
      (mainRun (fun _ => DocResult.convFail) "t" ["doc.pdf"] [] true).processed
      = ["doc.pdf"] ∧
    toProcessList ["doc.pdf"]
      (mainRun (fun _ => DocResult.raised) "t" ["doc.pdf"] [] true).processed
      = [] ∧
    toProcessList ["doc.pdf"]
      (mainRun (fun _ => DocResult.ok [] "N/A") "t" ["doc.pdf"] [] true).processed
      = [] := by
  refine ⟨by rfl, by rfl, by rfl⟩

/-! ### CSV output shape (main.py lines 383-391 and 424-426) -/

/-- Count of header writes in a CSV log. -/
def countHeaders (log : List CsvWrite) : Nat :=
  (log.filter (fun w =>
    match w with
    | CsvWrite.header _ => true
    | CsvWrite.row _ => false)).length

theorem mainStep_csv (env : String → DocResult) (timestamp : String)
    (st : MainState) (filename : String) :
    (mainStep env timestamp st filename).csv = st.csv ∨
    ∃ rec, (mainStep env timestamp st filename).csv =
      st.csv ++ [CsvWrite.row (mkRow rec)] := by
  rw [mainStep]
  cases env filename with
  | convFail => exact Or.inl rfl
  | raised => exact Or.inl rfl
  | ok header_info sig_date =>
    exact Or.inr ⟨augmentRecord header_info sig_date filename timestamp, rfl⟩

theorem foldl_csv_membership (env : String → DocResult) (timestamp : String)
    (l : List String) (st : MainState) :
    ∀ w ∈ (l.foldl (mainStep env timestamp) st).csv,
      w ∈ st.csv ∨ ∃ rec, w = CsvWrite.row (mkRow rec) := by
  induction l generalizing st with
  | nil => exact fun w hw => Or.inl hw
  | cons f t ih =>
    intro w hw
    rw [List.foldl_cons] at hw
    rcases ih (mainStep env timestamp st f) w hw with hmem | hrec
    · rcases mainStep_csv env timestamp st f with heq | ⟨rec, heq⟩
      · rw [heq] at hmem
        exact Or.inl hmem
      · rw [heq] at hmem
        rcases List.mem_append.mp hmem with h1 | h2
        · exact Or.inl h1
        · rw [List.mem_singleton] at h2
          exact Or.inr ⟨rec, h2⟩
    · exact Or.inr hrec

theorem countHeaders_append_row (log : List CsvWrite) (cells : List Value) :
    countHeaders (log ++ [CsvWrite.row cells]) = countHeaders log := by
  rw [countHeaders, countHeaders, List.filter_append]
  simp [List.filter]

theorem foldl_countHeaders (env : String → DocResult) (timestamp : String)
    (l : List String) (st : MainState) :
    countHeaders (l.foldl (mainStep env timestamp) st).csv =
      countHeaders st.csv := by
  induction l generalizing st with
  | nil => rfl
  | cons f t ih =>
    rw [List.foldl_cons, ih]
    rcases mainStep_csv env timestamp st f with heq | ⟨rec, heq⟩
    · rw [heq]
    · rw [heq, countHeaders_append_row]

/-- C9: in every main.py run, everything in the CSV log is the fixed
header or a row with exactly one cell per expected column, built by
`header_info.get(col, "N/A")` — so a field absent from the document's
record renders as the "N/A" sentinel at its column position, never as an
absent column; and the fixed column header is written exactly once, when
the CSV file does not yet exist (and some document is processed), never
when the file already exists. -/
theorem csv_rows_complete (env : String → DocResult) (timestamp : String)
    (listing checkpoint : List String) (csvExists : Bool) :
    (∀ w ∈ (mainRun env timestamp listing checkpoint csvExists).csv,
      w = CsvWrite.header expected_columns ∨
        ∃ rec, w = CsvWrite.row (mkRow rec)) ∧
    (∀ rec, (mkRow rec).length = expected_columns.length) ∧
    (∀ rec (i : Nat) (col : String), expected_columns[i]? = some col →
      dictLookup rec col = none →
      (mkRow rec)[i]? = some (Value.str "N/A")) ∧
    (countHeaders (mainRun env timestamp listing checkpoint csvExists).csv =
      if csvExists = false ∧ toProcessList listing checkpoint ≠ [] then 1
      else 0) := by
  refine ⟨?_, ?_, ?_, ?_⟩
  · intro w hw
    by_cases hempty : toProcessList listing checkpoint = []
    · rw [mainRun, if_pos hempty] at hw
      simp at hw
    · rw [mainRun, if_neg hempty] at hw
      rcases foldl_csv_membership env timestamp _ _ w hw with hmem | hrec
      · cases csvExists with
        | true => simp at hmem
        | false =>
          simp at hmem
          exact Or.inl hmem
      · exact Or.inr hrec
  · intro rec
    rw [mkRow, List.length_map]
  · intro rec i col hcol hnone
    rw [mkRow, List.getElem?_map, hcol, Option.map_some']
    rw [dictGetD, hnone]
    rfl
  · by_cases hempty : toProcessList listing checkpoint = []
    · rw [mainRun, if_pos hempty]
      rw [if_neg (fun hc => hc.2 hempty)]
      rfl
    · rw [mainRun, if_neg hempty, foldl_countHeaders]
      cases csvExists with
      | true => rfl
      | false => simp [hempty, countHeaders]

/-- Witness for C9: the first cell of the row for an empty record is the
"N/A" sentinel for the first expected column. -/
theorem csv_rows_complete_witness :
    (mkRow [])[0]? = some (Value.str "N/A") :=
  (csv_rows_complete (fun _ => DocResult.convFail) "t" [] [] true).2.2.1 []
    0 "patient_name" (by rfl) (by rfl)

/-! ### JSON-output variant (main_json_extractor.py lines 397-477)

The same listing filter as main.py, but no checkpoint: instead the
candidate list is truncated to its first 4 entries before the loop
(lines 413-414). -/

/-- Per-document outcome of the JSON-output loop body. -/
inductive JxDocResult
  | convFail
  | raised
  | ok (final_data : PyDict)

/-- Mutable state of the JSON-output batch loop; `attempted` records the
filenames the loop iterated over, in order. -/
structure JxState where
  attempted : List String
  successful_count : Nat
  error_count : Nat

/-- One iteration of the main_json_extractor.py for-loop (lines 428-477). -/
def jxStep (env : String → JxDocResult) (st : JxState) (filename : String) :
    JxState :=
  match env filename with
  | JxDocResult.convFail =>
    { st with
      attempted := st.attempted ++ [filename]
      error_count := st.error_count + 1 }
  | JxDocResult.raised =>
    { st with
      attempted := st.attempted ++ [filename]
      error_count := st.error_count + 1 }
  | JxDocResult.ok _ =>
    { st with
      attempted := st.attempted ++ [filename]
      successful_count := st.successful_count + 1 }

/-- The candidate list of main_json_extractor.py lines 408-414: the PDF
listing truncated to its first 4 entries. -/
def jxAllPdfs (listing : List String) : List String :=
  ((listing.filter (fun fname => isPdfFilename fname)).take 4)

/-- The JSON-output batch run (lines 397-477). -/
def jxRun (env : String → JxDocResult) (listing : List String) : JxState :=
  (jxAllPdfs listing).foldl (jxStep env)
    { attempted := []
      successful_count := 0
      error_count := 0 }

theorem jxStep_attempted (env : String → JxDocResult) (st : JxState)
    (filename : String) :
    (jxStep env st filename).attempted = st.attempted ++ [filename] := by
  rw [jxStep]
  cases env filename with
  | convFail => rfl
  | raised => rfl
  | ok d => rfl

theorem jxRun_foldl_attempted (env : String → JxDocResult) (l : List String)
    (st : JxState) :
    (l.foldl (jxStep env) st).attempted = st.attempted ++ l := by
  induction l generalizing st with
  | nil => rw [List.foldl_nil, List.append_nil]
  | cons f t ih =>
    rw [List.foldl_cons, ih, jxStep_attempted, List.append_assoc,
      List.singleton_append]

/-- C10: every invocation of the JSON-output batch iterates over at most
the first 4 PDFs of the filtered source-directory listing: the attempted
filenames are an initial segment of the PDF listing whose length is the
minimum of 4 and the number of PDFs present, regardless of directory
size. -/
theorem jxRun_processes_first_four (env : String → JxDocResult)
    (listing : List String) :
    ∃ rest, listing.filter (fun fname => isPdfFilename fname) =
        (jxRun env listing).attempted ++ rest ∧
      (jxRun env listing).attempted.length =
        min 4 (listing.filter (fun fname => isPdfFilename fname)).length ∧
      (jxRun env listing).attempted.length ≤ 4 := by
  have hatt : (jxRun env listing).attempted = jxAllPdfs listing := by
    rw [jxRun, jxRun_foldl_attempted]
    rfl
  refine ⟨(listing.filter (fun fname => isPdfFilename fname)).drop 4, ?_, ?_, ?_⟩
  · rw [hatt, jxAllPdfs, List.take_append_drop]
  · rw [hatt, jxAllPdfs, List.length_take]
  · rw [hatt, jxAllPdfs, List.length_take]
    exact Nat.min_le_left _ _

/-! ### PdfTypeClassifier (main_json_extractor_troubleshoot.py lines 17-89)

A PDF is modelled by what the two extraction libraries report for it:
the page texts PyPDF2 yields, the page texts pdfplumber yields (possibly
None per page), and whether either extraction phase raises. -/

/-- A PDF as seen by `detect_pdf_type`. -/
structure PdfDoc where
  pypdf2Pages : List String
  plumberPages : List (Option String)
  pypdf2Raises : Bool
  plumberRaises : Bool

/-- Cleaning of lines 39 and 69: strip, then replace newlines and
carriage returns by spaces. -/
def cleanedText (total_text : String) : String :=
  pyReplaceChar (pyReplaceChar (pyStrip total_text) (Char.ofNat 10) ' ')
    (Char.ofNat 13) ' '

/-- Concatenated text of the first up to 3 pages sampled via PyPDF2
(lines 30-36). -/
def pypdf2Text (p : PdfDoc) : String :=
  String.join (p.pypdf2Pages.take 3)

/-- Concatenated text of the first up to 3 pages sampled via pdfplumber,
skipping pages whose extraction returned None (lines 59-67). -/
def plumberText (p : PdfDoc) : String :=
  String.join ((p.plumberPages.take 3).filterMap id)

/-- The classification heuristic applied to cleaned text (lines 48-54 and
77-81): more than 100 characters, more than 10 whitespace-separated
words, and the float test `alpha_ratio > 0.5` on the exact quotient,
which for integer counts is `2 * alpha > length`. -/
def meetsTextHeuristic (clean_text : String) : Bool :=
  clean_text.length > 100 && (pySplitWs clean_text).length > 10 &&
    2 * countAlpha clean_text > clean_text.length

/-- Model of `detect_pdf_type` (lines 17-89): PyPDF2 first, pdfplumber as
fallback, `error` on an extraction exception in whichever phase runs. -/
def detect_pdf_type (p : PdfDoc) : String :=
  if p.pypdf2Raises then "error"
  else if meetsTextHeuristic (cleanedText (pypdf2Text p)) then "true_pdf"
  else if p.plumberRaises then "error"
  else if meetsTextHeuristic (cleanedText (plumberText p)) then "true_pdf"
  else "scanned_pdf"

/-- Spec-level classification criteria, with the alphabetic ratio stated
over the rationals. -/
def textPdfCriteria (clean_text : String) : Prop :=
  100 < clean_text.length ∧ 10 < (pySplitWs clean_text).length ∧
    (1 : ℚ) / 2 < (countAlpha clean_text : ℚ) / (clean_text.length : ℚ)

theorem meetsTextHeuristic_iff (s : String) :
    meetsTextHeuristic s = true ↔ textPdfCriteria s := by
  rw [meetsTextHeuristic, textPdfCriteria]
  simp only [Bool.and_eq_true, decide_eq_true_eq, gt_iff_lt]
  constructor
  · rintro ⟨⟨h1, h2⟩, h3⟩
    refine ⟨h1, h2, ?_⟩
    have hl : (0 : ℚ) < (s.length : ℚ) := by
      have : 0 < s.length := by omega
      exact_mod_cast this
    rw [div_lt_div_iff₀ (by norm_num) hl]
    have hcast : (s.length : ℚ) < 2 * (countAlpha s : ℚ) := by exact_mod_cast h3
    linarith
  · rintro ⟨h1, h2, h3⟩
    refine ⟨⟨h1, h2⟩, ?_⟩
    have hl : (0 : ℚ) < (s.length : ℚ) := by
      have : 0 < s.length := by omega
      exact_mod_cast this
    rw [div_lt_div_iff₀ (by norm_num) hl] at h3
    have hcast : (s.length : ℚ) < 2 * (countAlpha s : ℚ) := by linarith
    exact_mod_cast hcast

/-- C8 (amended): when no extraction exception occurs, `detect_pdf_type`
returns true_pdf exactly when the cleaned text of either the PyPDF2
sample or the pdfplumber fallback has more than 100 characters, more than
10 words, and an alphabetic ratio above one half, and returns scanned_pdf
exactly when neither does; an exception in the phase that runs yields
error.  Having at least 200 alphabetic characters of embedded text does
not by itself imply the text-PDF classification — the word-count and
ratio thresholds must also hold. -/
theorem detect_pdf_type_spec (p : PdfDoc) :
    (p.pypdf2Raises = false → p.plumberRaises = false →
      ((detect_pdf_type p = "true_pdf" ↔
        (textPdfCriteria (cleanedText (pypdf2Text p)) ∨
          textPdfCriteria (cleanedText (plumberText p)))) ∧
        (detect_pdf_type p = "scanned_pdf" ↔
          (¬ textPdfCriteria (cleanedText (pypdf2Text p)) ∧
            ¬ textPdfCriteria (cleanedText (plumberText p)))))) ∧
    (p.pypdf2Raises = true → detect_pdf_type p = "error") ∧
    (p.pypdf2Raises = false → p.plumberRaises = true →
      ¬ textPdfCriteria (cleanedText (pypdf2Text p)) →
      detect_pdf_type p = "error") := by
  refine ⟨?_, ?_, ?_⟩
  · intro h1 h2
    rw [detect_pdf_type, if_neg (by rw [h1]; simp)]
    by_cases hm1 : meetsTextHeuristic (cleanedText (pypdf2Text p)) = true
    · rw [if_pos hm1]
      have hc1 := (meetsTextHeuristic_iff _).mp hm1
      constructor
      · exact ⟨fun _ => Or.inl hc1, fun _ => rfl⟩
      · constructor
        · intro habs
          exact absurd habs (by decide)
        · rintro ⟨hn1, -⟩
          exact absurd hc1 hn1
    · rw [if_neg hm1, if_neg (by rw [h2]; simp)]
      have hn1 : ¬ textPdfCriteria (cleanedText (pypdf2Text p)) :=
        fun hc => hm1 ((meetsTextHeuristic_iff _).mpr hc)
      by_cases hm2 : meetsTextHeuristic (cleanedText (plumberText p)) = true
      · rw [if_pos hm2]
        have hc2 := (meetsTextHeuristic_iff _).mp hm2
        constructor
        · exact ⟨fun _ => Or.inr hc2, fun _ => rfl⟩
        · constructor
          · intro habs
            exact absurd habs (by decide)
          · rintro ⟨-, hn2⟩
            exact absurd hc2 hn2
      · rw [if_neg hm2]
        have hn2 : ¬ textPdfCriteria (cleanedText (plumberText p)) :=
          fun hc => hm2 ((meetsTextHeuristic_iff _).mpr hc)
        constructor
        · constructor
          · intro habs
            exact absurd habs (by decide)
          · rintro (hc | hc)
            · exact absurd hc hn1
            · exact absurd hc hn2
        · exact ⟨fun _ => ⟨hn1, hn2⟩, fun _ => rfl⟩
  · intro h1
    rw [detect_pdf_type, if_pos h1]
  · intro h1 h2 hn1
    rw [detect_pdf_type, if_neg (by rw [h1]; simp),
      if_neg (fun hm => hn1 ((meetsTextHeuristic_iff _).mp hm)), if_pos h2]

/-- The 200-letter unbroken text of the C8 counterexample. -/
def unbrokenLetters : String := String.mk (List.replicate 200 'a')

set_option maxRecDepth 40000 in
/-- C8 counterexample: a PDF whose embedded extractable text, under both
extraction methods, is 200 alphabetic characters with no word break is
classified scanned_pdf, not true_pdf: its word count is 1, failing the
more-than-10-words threshold, so at least 200 alphabetic characters of
embedded text alone does not yield the text-PDF classification. -/
theorem detect_scanned_on_unbroken_letters :
    detect_pdf_type (PdfDoc.mk [unbrokenLetters] [some unbrokenLetters] false false)
      = "scanned_pdf" ∧
    countAlpha (pypdf2Text
      (PdfDoc.mk [unbrokenLetters] [some unbrokenLetters] false false)) = 200 ∧
    countAlpha (plumberText
      (PdfDoc.mk [unbrokenLetters] [some unbrokenLetters] false false)) = 200 ∧
    (pySplitWs (cleanedText (pypdf2Text
      (PdfDoc.mk [unbrokenLetters] [some unbrokenLetters] false false)))).length
      = 1 := by
  refine ⟨by rfl, by rfl, by rfl, by rfl⟩

/-- The 30-word text of the C8 witness. -/
def thirtyWords : String := String.intercalate " " (List.replicate 30 "word")

set_option maxRecDepth 40000 in
/-- Witness for C8: a document whose extracted text has 30 four-letter
words (149 characters, 120 of them alphabetic) meets all three thresholds
and is classified true_pdf. -/
theorem detect_pdf_type_spec_witness :
    detect_pdf_type (PdfDoc.mk [thirtyWords] [] false false) = "true_pdf" := by
  have h := (detect_pdf_type_spec (PdfDoc.mk [thirtyWords] [] false false)).1 rfl rfl
  refine h.1.mpr (Or.inl ?_)
  rw [textPdfCriteria]
  refine ⟨by decide, by decide, ?_⟩
  have e1 : countAlpha (cleanedText (pypdf2Text
      (PdfDoc.mk [thirtyWords] [] false false))) = 120 := by rfl
  have e2 : (cleanedText (pypdf2Text
      (PdfDoc.mk [thirtyWords] [] false false))).length = 149 := by rfl
  rw [e1, e2]
  norm_num
